import Mathlib

/-!
Shallow embedding of `src/cbor_decode.c` (cddl_gen CBOR decoding primitives).

The input buffer is modelled as a total byte memory `mem : Nat → Nat`
(reads go through `rd`, which truncates to 8 bits like a `uint8_t` load)
together with an end offset `p_end` (the offset of `p_payload_end`).
The decode cursor `*pp_payload` is an offset `pos`, the decode budget
`*p_elem_count` is `elemCount`; both are packaged in `DState`.

Every decoder returns a `DRes`: the boolean return value, the final
contents of the caller's cursor and budget (exactly as the C code leaves
them, including on failure paths, where the code restores or does not
restore them), the final contents of the caller's result buffer, and the
list of every buffer offset dereferenced during the call (used to reason
about out-of-bounds reads).

Result buffers are lists of bytes in host (little-endian, the default
`#else` branches of the source) order; `leVal` reads such a buffer as an
unsigned integer and `toInt32` reinterprets a 4-byte buffer as `int32_t`.
-/

namespace CborDecode

/-- A `uint8_t` load from the input buffer at offset `i`. -/
def rd (mem : Nat → Nat) (i : Nat) : Nat := mem i % 256

/-- `MAJOR_TYPE(header_byte)`: `((header_byte) >> 5) & 0x7`. -/
def MAJOR_TYPE (b : Nat) : Nat := b / 32 % 8

/-- `ADDITIONAL(header_byte)`: `(header_byte) & 0x1F`. -/
def ADDITIONAL (b : Nat) : Nat := b % 32

def CBOR_MAJOR_TYPE_PINT : Nat := 0
def CBOR_MAJOR_TYPE_NINT : Nat := 1
def CBOR_MAJOR_TYPE_BSTR : Nat := 2
def CBOR_MAJOR_TYPE_TSTR : Nat := 3
def CBOR_MAJOR_TYPE_LIST : Nat := 4
def CBOR_MAJOR_TYPE_MAP  : Nat := 5
def CBOR_MAJOR_TYPE_TAG  : Nat := 6
def CBOR_MAJOR_TYPE_PRIM : Nat := 7

def VALUE_IN_HEADER : Nat := 23

def BOOL_TO_PRIM : Nat := 20

/-- `additional_len`: extension width selected by the additional info. -/
def additional_len (additional : Nat) : Nat :=
  if additional = 24 then 1
  else if additional = 25 then 2
  else if additional = 26 then 4
  else if additional = 27 then 8
  else 0

/-- Value of a result buffer read as a little-endian unsigned integer. -/
def leVal : List Nat → Nat
  | [] => 0
  | b :: bs => b + 256 * leVal bs

/-- The four little-endian bytes of `x` as a `uint32_t` buffer. -/
def encU32 (x : Nat) : List Nat :=
  [x % 256, x / 256 % 256, x / 2 ^ 16 % 256, x / 2 ^ 24 % 256]

/-- Reinterpret a 4-byte buffer as an `int32_t` (two's complement). -/
def toInt32 (bs : List Nat) : Int :=
  if leVal bs < 2 ^ 31 then (leVal bs : Int) else (leVal bs : Int) - 2 ^ 32

/-- Store an `int32_t` value back into a 4-byte buffer. -/
def encodeInt32 (i : Int) : List Nat := encU32 ((i % 2 ^ 32).toNat)

/-- `PTR_VALUE_IN_RANGE(uint32_t, ...)`; `none` models a NULL bound. -/
def value_in_range_u32 (v : Nat) (p_min p_max : Option Nat) : Bool :=
  (match p_min with | none => true | some m => decide (m ≤ v)) &&
  (match p_max with | none => true | some m => decide (v ≤ m))

/-- `PTR_VALUE_IN_RANGE(int32_t, ...)`; `none` models a NULL bound. -/
def value_in_range_i32 (v : Int) (p_min p_max : Option Int) : Bool :=
  (match p_min with | none => true | some m => decide (m ≤ v)) &&
  (match p_max with | none => true | some m => decide (v ≤ m))

/-- Decode cursor offset paired with the decode budget (`*p_elem_count`). -/
structure DState where
  pos : Nat
  elemCount : Nat
deriving DecidableEq, Repr

/-- Everything a decode call leaves in the caller's memory: the boolean
return value, the final cursor offset and budget, the final contents of
the caller's result storage, and the offsets dereferenced in the input
buffer during the call. -/
structure DRes (α : Type) where
  ok : Bool
  pos : Nat
  elemCount : Nat
  result : α
  reads : List Nat
deriving Repr

/-- The extension-copy loop of `value_extract` (little-endian branch):
`for (i = 0; i < len; i++) p_u8_result[i] = (*pp_payload)[len - i - 1];`
with `*pp_payload` at offset `pos1`. -/
def extCopy (mem : Nat → Nat) (pos1 len : Nat) (buf : List Nat) : List Nat :=
  (List.range len).foldl (fun b i => b.set i (rd mem (pos1 + (len - i - 1)))) buf

/-- The offsets read by the extension-copy loop. -/
def extReads (pos1 len : Nat) : List Nat :=
  (List.range len).map (fun i => pos1 + (len - i - 1))

/-- `value_extract`: reads the header byte at the cursor, advances the
cursor, validates budget and bounds, fills the caller's result buffer
(whose incoming contents are `buf`; `result_len` is `buf.length`), and
on failure rewinds the cursor by the one consumed header byte.  Note the
header byte is dereferenced before any check, so `s.pos` is in `reads`
on every path. -/
def value_extract (mem : Nat → Nat) (p_end : Nat) (s : DState)
    (buf : List Nat) : DRes (List Nat) :=
  let result_len := buf.length
  let additional := ADDITIONAL (rd mem s.pos)
  let pos1 := s.pos + 1
  if s.elemCount = 0 then ⟨false, s.pos, s.elemCount, buf, [s.pos]⟩
  else if pos1 > p_end then ⟨false, s.pos, s.elemCount, buf, [s.pos]⟩
  else
    let buf0 := (List.replicate result_len 0).set 0 additional
    if additional > VALUE_IN_HEADER then
      let len := additional_len additional
      if len > result_len then ⟨false, s.pos, s.elemCount, buf0, [s.pos]⟩
      else if pos1 + len > p_end then ⟨false, s.pos, s.elemCount, buf0, [s.pos]⟩
      else ⟨true, pos1 + len, s.elemCount - 1, extCopy mem pos1 len buf0,
            s.pos :: extReads pos1 len⟩
    else ⟨true, pos1, s.elemCount - 1, buf0, [s.pos]⟩

/-- `uint32_decode`: extraction into a 4-byte buffer (incoming garbage
contents `r0`), then the unsigned range check.  A range failure does not
restore the cursor or budget. -/
def uint32_decode (mem : Nat → Nat) (p_end : Nat) (s : DState) (r0 : Nat)
    (p_min p_max : Option Nat) : DRes (List Nat) :=
  let r := value_extract mem p_end s (encU32 r0)
  if r.ok = false then r
  else if value_in_range_u32 (leVal r.result) p_min p_max = false then
    { r with ok := false }
  else r

/-- `uintx32_decode`: major-type check (positive integer), then
`uint32_decode`. -/
def uintx32_decode (mem : Nat → Nat) (p_end : Nat) (s : DState) (r0 : Nat)
    (p_min p_max : Option Nat) : DRes (List Nat) :=
  let major_type := MAJOR_TYPE (rd mem s.pos)
  if major_type ≠ CBOR_MAJOR_TYPE_PINT then
    ⟨false, s.pos, s.elemCount, encU32 r0, [s.pos]⟩
  else
    let r := uint32_decode mem p_end s r0 p_min p_max
    { r with reads := s.pos :: r.reads }

/-- `size_decode`: `size_t` is 4 bytes (static assert in the source), so
this is exactly `uint32_decode`. -/
def size_decode (mem : Nat → Nat) (p_end : Nat) (s : DState) (r0 : Nat)
    (p_min p_max : Option Nat) : DRes (List Nat) :=
  uint32_decode mem p_end s r0 p_min p_max

/-- `int32_decode`: extraction into a 4-byte buffer, rejection of raw
magnitudes with the top bit set (`*p_result < 0`), the negative-integer
transform `*p_result = 1 - *p_result` when the major type is NINT, then
the signed range check.  Failures after a successful extraction do not
restore the cursor or budget. -/
def int32_decode (mem : Nat → Nat) (p_end : Nat) (s : DState) (r0 : Nat)
    (p_min p_max : Option Int) : DRes (List Nat) :=
  let major_type := MAJOR_TYPE (rd mem s.pos)
  let r := value_extract mem p_end s (encU32 r0)
  if r.ok = false then { r with reads := s.pos :: r.reads }
  else if toInt32 r.result < 0 then
    ⟨false, r.pos, r.elemCount, r.result, s.pos :: r.reads⟩
  else
    let buf' := if major_type = CBOR_MAJOR_TYPE_NINT then
        encodeInt32 (1 - toInt32 r.result) else r.result
    if value_in_range_i32 (toInt32 buf') p_min p_max = false then
      ⟨false, r.pos, r.elemCount, buf', s.pos :: r.reads⟩
    else ⟨true, r.pos, r.elemCount, buf', s.pos :: r.reads⟩

/-- `intx32_decode`: major-type check (positive or negative integer),
then `int32_decode`. -/
def intx32_decode (mem : Nat → Nat) (p_end : Nat) (s : DState) (r0 : Nat)
    (p_min p_max : Option Int) : DRes (List Nat) :=
  let major_type := MAJOR_TYPE (rd mem s.pos)
  if major_type ≠ CBOR_MAJOR_TYPE_PINT ∧ major_type ≠ CBOR_MAJOR_TYPE_NINT then
    ⟨false, s.pos, s.elemCount, encU32 r0, [s.pos]⟩
  else
    let r := int32_decode mem p_end s r0 p_min p_max
    { r with reads := s.pos :: r.reads }

/-- `cbor_string_type_t`: a (pointer, length) view into the input
buffer; the pointer is modelled as an offset. -/
structure CborString where
  value : Nat
  len : Nat
deriving DecidableEq, Repr

/-- `strx_start_decode`: major-type check (byte or text string), length
via `size_decode` (into the `len` field, incoming contents `str0.len`),
then the `value` pointer is set to the cursor position after the header.
No payload validation and no payload advancement. -/
def strx_start_decode (mem : Nat → Nat) (p_end : Nat) (s : DState)
    (str0 : CborString) (p_min p_max : Option Nat) : DRes CborString :=
  let major_type := MAJOR_TYPE (rd mem s.pos)
  if major_type ≠ CBOR_MAJOR_TYPE_BSTR ∧ major_type ≠ CBOR_MAJOR_TYPE_TSTR then
    ⟨false, s.pos, s.elemCount, str0, [s.pos]⟩
  else
    let r := size_decode mem p_end s str0.len p_min p_max
    if r.ok = false then
      ⟨false, r.pos, r.elemCount, { str0 with len := leVal r.result },
       s.pos :: r.reads⟩
    else
      ⟨true, r.pos, r.elemCount, ⟨r.pos, leVal r.result⟩, s.pos :: r.reads⟩

/-- `strx_decode`: `strx_start_decode`, then the cursor is advanced by
the decoded length with no check against the end of the buffer. -/
def strx_decode (mem : Nat → Nat) (p_end : Nat) (s : DState)
    (str0 : CborString) (p_min p_max : Option Nat) : DRes CborString :=
  let r := strx_start_decode mem p_end s str0 p_min p_max
  if r.ok = false then r
  else { r with pos := r.pos + r.result.len }

/-- `list_start_decode`: major-type check (list or map), then
`uint32_decode` of the element count with the by-value bounds (always
present, so both are `some`).  The caller's `size_t` result has incoming
contents `r0`. -/
def list_start_decode (mem : Nat → Nat) (p_end : Nat) (s : DState) (r0 : Nat)
    (min_num max_num : Nat) : DRes (List Nat) :=
  let major_type := MAJOR_TYPE (rd mem s.pos)
  if major_type ≠ CBOR_MAJOR_TYPE_LIST ∧ major_type ≠ CBOR_MAJOR_TYPE_MAP then
    ⟨false, s.pos, s.elemCount, encU32 r0, [s.pos]⟩
  else
    let r := uint32_decode mem p_end s r0 (some min_num) (some max_num)
    { r with reads := s.pos :: r.reads }

/-- `primx_decode`: major-type check (primitive), `uint32_decode` into a
local `uint32_t val` (incoming garbage `val0`), then, when the result
destination is non-NULL (`res0 = some b`), the store `*p_result = val`
through a `uint8_t` pointer, which keeps only the low 8 bits. -/
def primx_decode (mem : Nat → Nat) (p_end : Nat) (s : DState) (val0 : Nat)
    (res0 : Option Nat) (p_min p_max : Option Nat) : DRes (Option Nat) :=
  let major_type := MAJOR_TYPE (rd mem s.pos)
  if major_type ≠ CBOR_MAJOR_TYPE_PRIM then
    ⟨false, s.pos, s.elemCount, res0, [s.pos]⟩
  else
    let r := uint32_decode mem p_end s val0 p_min p_max
    if r.ok = false then ⟨false, r.pos, r.elemCount, res0, s.pos :: r.reads⟩
    else
      match res0 with
      | none => ⟨true, r.pos, r.elemCount, none, s.pos :: r.reads⟩
      | some _ => ⟨true, r.pos, r.elemCount, some (leVal r.result % 256),
                   s.pos :: r.reads⟩

/-- `boolx_decode`: shifts the caller's byte bounds up by
`BOOL_TO_PRIM` (in `uint8_t` arithmetic), calls `primx_decode` with the
(non-NULL) result destination, then shifts the stored byte back down by
`BOOL_TO_PRIM`, again as a `uint8_t`. -/
def boolx_decode (mem : Nat → Nat) (p_end : Nat) (s : DState) (val0 : Nat)
    (res0 : Nat) (min0 max0 : Nat) : DRes Nat :=
  let min_result := (min0 % 256 + BOOL_TO_PRIM) % 256
  let max_result := (max0 % 256 + BOOL_TO_PRIM) % 256
  let r := primx_decode mem p_end s val0 (some res0) (some min_result)
      (some max_result)
  if r.ok = false then
    ⟨false, r.pos, r.elemCount, (r.result.getD res0) % 256, r.reads⟩
  else
    ⟨true, r.pos, r.elemCount, ((r.result.getD res0) + 256 - BOOL_TO_PRIM) % 256,
     r.reads⟩

/-- `double_decode`: major-type check (primitive), extraction into the
caller's 8-byte `double` buffer (incoming contents `buf0`), then the
range check under the IEEE-double comparison, which is abstracted as the
parameter `dle` (`dle a b` meaning `a <= b` as doubles). -/
def double_decode (dle : List Nat → List Nat → Bool) (mem : Nat → Nat)
    (p_end : Nat) (s : DState) (buf0 : List Nat)
    (p_min p_max : Option (List Nat)) : DRes (List Nat) :=
  let major_type := MAJOR_TYPE (rd mem s.pos)
  if major_type ≠ CBOR_MAJOR_TYPE_PRIM then
    ⟨false, s.pos, s.elemCount, buf0, [s.pos]⟩
  else
    let r := value_extract mem p_end s buf0
    if r.ok = false then { r with reads := s.pos :: r.reads }
    else
      let okmin := match p_min with | none => true | some m => dle m r.result
      let okmax := match p_max with | none => true | some m => dle r.result m
      if (okmin && okmax) = false then
        ⟨false, r.pos, r.elemCount, r.result, s.pos :: r.reads⟩
      else ⟨true, r.pos, r.elemCount, r.result, s.pos :: r.reads⟩

/-- `any_decode`: extraction of an 8-byte value into a local
`uint64_t`, then, for string/list/map major types, the cursor is
advanced by that value with no check against the end of the buffer. -/
def any_decode (mem : Nat → Nat) (p_end : Nat) (s : DState) : DRes Unit :=
  let major_type := MAJOR_TYPE (rd mem s.pos)
  let r := value_extract mem p_end s (List.replicate 8 0)
  if r.ok = false then ⟨false, r.pos, r.elemCount, (), s.pos :: r.reads⟩
  else if major_type = CBOR_MAJOR_TYPE_BSTR ∨ major_type = CBOR_MAJOR_TYPE_TSTR
      ∨ major_type = CBOR_MAJOR_TYPE_LIST ∨ major_type = CBOR_MAJOR_TYPE_MAP then
    ⟨true, r.pos + leVal r.result, r.elemCount, (), s.pos :: r.reads⟩
  else ⟨true, r.pos, r.elemCount, (), s.pos :: r.reads⟩

/-- The loop of `multi_decode`.  `i` is the loop counter (also the next
result-slot index), `fuel` is `max_decode - i`.  On a failed attempt the
cursor/budget snapshot `s` taken before the attempt is restored, the
count of prior successes is reported, and the call succeeds exactly when
that count reaches `min_d`. -/
def multi_go (dec : Nat → DState → Bool × DState) (min_d : Nat) :
    Nat → DState → Nat → Bool × Nat × DState
  | i, s, 0 => (true, i, s)
  | i, s, fuel + 1 =>
    let r := dec i s
    if r.1 then multi_go dec min_d (i + 1) r.2 fuel
    else (decide (min_d ≤ i), i, s)

/-- `multi_decode`, with the decoder callback abstracted as a function
from slot index and state to (success, new state). -/
def multi_decode (dec : Nat → DState → Bool × DState) (min_d max_d : Nat)
    (s : DState) : Bool × Nat × DState :=
  multi_go dec min_d 0 s max_d

/-- State after attempts `0 .. n-1` of `dec` starting from `s`, assuming
they all succeed. -/
def runOk (dec : Nat → DState → Bool × DState) (s : DState) : Nat → DState
  | 0 => s
  | n + 1 => (dec n (runOk dec s n)).2

/-- Attempts `0 .. n-1` of `dec` starting from `s` all succeed. -/
def okUpTo (dec : Nat → DState → Bool × DState) (s : DState) (n : Nat) : Prop :=
  ∀ k, k < n → (dec k (runOk dec s k)).1 = true

/-- A concrete input buffer as a byte memory (out-of-range offsets read
as zero; the decoders are never entitled to read there). -/
def memOf (l : List Nat) : Nat → Nat := fun i => l.getD i 0

/-- `uintx32_decode` adapted to the `multi_decode` callback shape: each
attempt decodes into its own (garbage-initialised) slot, whose contents
do not influence the cursor/budget outcome. -/
def uintDec (mem : Nat → Nat) (p_end : Nat) : Nat → DState → Bool × DState :=
  fun _ s =>
    let r := uintx32_decode mem p_end s 0 none none
    (r.ok, ⟨r.pos, r.elemCount⟩)



theorem value_extract_spec (mem : Nat → Nat) (p_end : Nat) (s : DState)
    (buf : List Nat) :
    (value_extract mem p_end s buf =
        ⟨false, s.pos, s.elemCount, buf, [s.pos]⟩ ∧
      (s.elemCount = 0 ∨ p_end < s.pos + 1))
    ∨ (value_extract mem p_end s buf =
        ⟨false, s.pos, s.elemCount,
          (List.replicate buf.length 0).set 0 (ADDITIONAL (rd mem s.pos)),
          [s.pos]⟩ ∧
      s.elemCount ≠ 0 ∧ s.pos + 1 ≤ p_end ∧
      23 < ADDITIONAL (rd mem s.pos) ∧
      (buf.length < additional_len (ADDITIONAL (rd mem s.pos)) ∨
        p_end < s.pos + 1 + additional_len (ADDITIONAL (rd mem s.pos))))
    ∨ (value_extract mem p_end s buf =
        ⟨true, s.pos + 1 + additional_len (ADDITIONAL (rd mem s.pos)),
          s.elemCount - 1,
          extCopy mem (s.pos + 1) (additional_len (ADDITIONAL (rd mem s.pos)))
            ((List.replicate buf.length 0).set 0 (ADDITIONAL (rd mem s.pos))),
          s.pos :: extReads (s.pos + 1)
            (additional_len (ADDITIONAL (rd mem s.pos)))⟩ ∧
      s.elemCount ≠ 0 ∧ s.pos + 1 ≤ p_end ∧
      23 < ADDITIONAL (rd mem s.pos) ∧
      additional_len (ADDITIONAL (rd mem s.pos)) ≤ buf.length ∧
      s.pos + 1 + additional_len (ADDITIONAL (rd mem s.pos)) ≤ p_end)
    ∨ (value_extract mem p_end s buf =
        ⟨true, s.pos + 1, s.elemCount - 1,
          (List.replicate buf.length 0).set 0 (ADDITIONAL (rd mem s.pos)),
          [s.pos]⟩ ∧
      s.elemCount ≠ 0 ∧ s.pos + 1 ≤ p_end ∧
      ADDITIONAL (rd mem s.pos) ≤ 23) := by
  by_cases h0 : s.elemCount = 0
  · exact Or.inl ⟨by simp [value_extract, h0], Or.inl h0⟩
  · by_cases h1 : s.pos + 1 > p_end
    · exact Or.inl ⟨by simp [value_extract, h0, h1], Or.inr h1⟩
    · by_cases h2 : ADDITIONAL (rd mem s.pos) > VALUE_IN_HEADER
      · by_cases h3 :
          additional_len (ADDITIONAL (rd mem s.pos)) > buf.length
        · refine Or.inr (Or.inl ⟨by simp [value_extract, h0, h1, h2, h3], ?_⟩)
          refine ⟨h0, by omega, ?_, Or.inl h3⟩
          simpa [VALUE_IN_HEADER] using h2
        · by_cases h4 :
            s.pos + 1 + additional_len (ADDITIONAL (rd mem s.pos)) > p_end
          · refine Or.inr (Or.inl
              ⟨by simp [value_extract, h0, h1, h2, h3, h4], ?_⟩)
            refine ⟨h0, by omega, ?_, Or.inr h4⟩
            simpa [VALUE_IN_HEADER] using h2
          · refine Or.inr (Or.inr (Or.inl
              ⟨by simp [value_extract, h0, h1, h2, h3, h4], ?_⟩))
            refine ⟨h0, by omega, ?_, by omega, by omega⟩
            simpa [VALUE_IN_HEADER] using h2
      · refine Or.inr (Or.inr (Or.inr
          ⟨by simp [value_extract, h0, h1, h2], ?_⟩))
        refine ⟨h0, by omega, ?_⟩
        simpa [VALUE_IN_HEADER] using h2



theorem foldl_set_range (g : Nat → Nat) :
    ∀ (n : Nat) (b : List Nat), n ≤ b.length →
      (List.range n).foldl (fun l i => l.set i (g i)) b =
        (List.range n).map g ++ b.drop n := by
  intro n
  induction n with
  | zero => intro b _; simp
  | succ n ih =>
    intro b hb
    rw [List.range_succ, List.foldl_append, ih b (by omega)]
    simp only [List.foldl_cons, List.foldl_nil, List.map_append,
      List.map_cons, List.map_nil]
    rw [List.set_append]
    have hlen : ((List.range n).map g).length = n := by simp
    rw [hlen, if_neg (lt_irrefl n), Nat.sub_self]
    rw [List.drop_eq_getElem_cons (show n < b.length by omega),
      List.set_cons_zero]
    simp

theorem extCopy_eq (mem : Nat → Nat) (pos1 len : Nat) (buf : List Nat)
    (h : len ≤ buf.length) :
    extCopy mem pos1 len buf =
      (List.range len).map (fun i => rd mem (pos1 + (len - i - 1))) ++
        buf.drop len :=
  foldl_set_range _ len buf h

theorem extCopy_length (mem : Nat → Nat) (pos1 len : Nat) (buf : List Nat)
    (h : len ≤ buf.length) :
    (extCopy mem pos1 len buf).length = buf.length := by
  rw [extCopy_eq mem pos1 len buf h]
  simp
  omega

theorem rd_lt (mem : Nat → Nat) (i : Nat) : rd mem i < 256 :=
  Nat.mod_lt _ (by norm_num)

theorem ADDITIONAL_lt (b : Nat) : ADDITIONAL b < 32 :=
  Nat.mod_lt _ (by norm_num)

theorem buf0_bytes_lt (n a : Nat) (ha : a < 256) :
    ∀ x ∈ (List.replicate n 0).set 0 a, x < 256 := by
  intro x hx
  rcases List.mem_or_eq_of_mem_set hx with hmem | rfl
  · rw [List.eq_of_mem_replicate hmem]; norm_num
  · exact ha

theorem leVal_lt (bs : List Nat) (h : ∀ x ∈ bs, x < 256) :
    leVal bs < 256 ^ bs.length := by
  induction bs with
  | nil => simp [leVal]
  | cons b bs ih =>
    have hb : b < 256 := h b (by simp)
    have hbs : leVal bs < 256 ^ bs.length := ih (fun x hx => h x (by simp [hx]))
    simp only [leVal, List.length_cons, pow_succ]
    nlinarith

theorem value_extract_result_length (mem : Nat → Nat) (p_end : Nat)
    (s : DState) (buf : List Nat) :
    (value_extract mem p_end s buf).result.length = buf.length := by
  rcases value_extract_spec mem p_end s buf with
    ⟨he, _⟩ | ⟨he, _⟩ | ⟨he, _, _, _, h5, _⟩ | ⟨he, _⟩ <;> rw [he] <;> simp
  rw [extCopy_length _ _ _ _ (by simpa using h5)]
  simp

theorem value_extract_result_bytes (mem : Nat → Nat) (p_end : Nat)
    (s : DState) (buf : List Nat) (hb : ∀ x ∈ buf, x < 256) :
    ∀ x ∈ (value_extract mem p_end s buf).result, x < 256 := by
  have ha : ADDITIONAL (rd mem s.pos) < 256 :=
    lt_trans (ADDITIONAL_lt _) (by norm_num)
  rcases value_extract_spec mem p_end s buf with
    ⟨he, _⟩ | ⟨he, _⟩ | ⟨he, _, _, _, h5, _⟩ | ⟨he, _⟩ <;> rw [he] <;>
    simp only []
  · exact hb
  · exact buf0_bytes_lt _ _ ha
  · intro x hx
    rw [extCopy_eq _ _ _ _ (by simpa using h5)] at hx
    rcases List.mem_append.1 hx with hx | hx
    · rcases List.mem_map.1 hx with ⟨i, _, rfl⟩
      exact rd_lt mem _
    · exact buf0_bytes_lt _ _ ha x (List.mem_of_mem_drop hx)
  · exact buf0_bytes_lt _ _ ha

theorem encU32_bytes (x : Nat) : ∀ b ∈ encU32 x, b < 256 := by
  intro b hb
  simp only [encU32, List.mem_cons, List.not_mem_nil, or_false] at hb
  rcases hb with rfl | rfl | rfl | rfl <;> exact Nat.mod_lt _ (by norm_num)

theorem encU32_length (x : Nat) : (encU32 x).length = 4 := rfl

theorem value_extract_u32_lt (mem : Nat → Nat) (p_end : Nat) (s : DState)
    (r0 : Nat) :
    leVal (value_extract mem p_end s (encU32 r0)).result < 2 ^ 32 := by
  have h := leVal_lt _ (value_extract_result_bytes mem p_end s (encU32 r0)
    (encU32_bytes r0))
  rw [value_extract_result_length, encU32_length] at h
  exact lt_of_lt_of_eq h (by norm_num)

theorem value_extract_fail_state (mem : Nat → Nat) (p_end : Nat) (s : DState)
    (buf : List Nat) (h : (value_extract mem p_end s buf).ok = false) :
    (value_extract mem p_end s buf).pos = s.pos ∧
    (value_extract mem p_end s buf).elemCount = s.elemCount := by
  rcases value_extract_spec mem p_end s buf with
    ⟨he, _⟩ | ⟨he, _⟩ | ⟨he, _⟩ | ⟨he, _⟩ <;> rw [he] at h ⊢ <;> simp_all

theorem value_extract_ok_budget (mem : Nat → Nat) (p_end : Nat) (s : DState)
    (buf : List Nat) (h : (value_extract mem p_end s buf).ok = true) :
    s.elemCount ≠ 0 ∧
    (value_extract mem p_end s buf).elemCount + 1 = s.elemCount := by
  rcases value_extract_spec mem p_end s buf with
    ⟨he, _⟩ | ⟨he, _⟩ | ⟨he, hc⟩ | ⟨he, hc⟩ <;> rw [he] at h ⊢ <;> simp_all <;>
    omega

theorem value_extract_budget_zero (mem : Nat → Nat) (p_end : Nat) (s : DState)
    (buf : List Nat) (h : s.elemCount = 0) :
    (value_extract mem p_end s buf).ok = false := by
  rcases value_extract_spec mem p_end s buf with
    ⟨he, _⟩ | ⟨he, _⟩ | ⟨he, hc⟩ | ⟨he, hc⟩ <;> rw [he] <;> simp_all

theorem value_extract_ok_pos_le (mem : Nat → Nat) (p_end : Nat) (s : DState)
    (buf : List Nat) (h : (value_extract mem p_end s buf).ok = true) :
    (value_extract mem p_end s buf).pos ≤ p_end := by
  rcases value_extract_spec mem p_end s buf with
    ⟨he, _⟩ | ⟨he, _⟩ | ⟨he, hc⟩ | ⟨he, hc⟩ <;> rw [he] at h ⊢ <;> simp_all

theorem leVal_encU32 (x : Nat) : leVal (encU32 x) = x % 2 ^ 32 := by
  simp only [encU32, leVal]
  omega

theorem toInt32_encodeInt32 (i : Int) (h1 : -2 ^ 31 ≤ i) (h2 : i < 2 ^ 31) :
    toInt32 (encodeInt32 i) = i := by
  simp only [toInt32, encodeInt32, leVal_encU32]
  omega




theorem uint32_decode_fields (mem : Nat → Nat) (p_end : Nat) (s : DState)
    (r0 : Nat) (p_min p_max : Option Nat) :
    (uint32_decode mem p_end s r0 p_min p_max).pos =
      (value_extract mem p_end s (encU32 r0)).pos ∧
    (uint32_decode mem p_end s r0 p_min p_max).elemCount =
      (value_extract mem p_end s (encU32 r0)).elemCount ∧
    (uint32_decode mem p_end s r0 p_min p_max).result =
      (value_extract mem p_end s (encU32 r0)).result ∧
    (uint32_decode mem p_end s r0 p_min p_max).reads =
      (value_extract mem p_end s (encU32 r0)).reads ∧
    (uint32_decode mem p_end s r0 p_min p_max).ok =
      ((value_extract mem p_end s (encU32 r0)).ok &&
        value_in_range_u32 (leVal (value_extract mem p_end s (encU32 r0)).result)
          p_min p_max) := by
  simp only [uint32_decode]
  by_cases h : (value_extract mem p_end s (encU32 r0)).ok = false
  · simp [h]
  · rw [Bool.not_eq_false] at h
    by_cases hr : value_in_range_u32
        (leVal (value_extract mem p_end s (encU32 r0)).result) p_min p_max =
        false
    · simp [h, hr]
    · rw [Bool.not_eq_false] at hr
      simp [h, hr]

theorem int32_decode_state (mem : Nat → Nat) (p_end : Nat) (s : DState)
    (r0 : Nat) (p_min p_max : Option Int) :
    (int32_decode mem p_end s r0 p_min p_max).pos =
      (value_extract mem p_end s (encU32 r0)).pos ∧
    (int32_decode mem p_end s r0 p_min p_max).elemCount =
      (value_extract mem p_end s (encU32 r0)).elemCount ∧
    (int32_decode mem p_end s r0 p_min p_max).reads =
      s.pos :: (value_extract mem p_end s (encU32 r0)).reads := by
  simp only [int32_decode]
  by_cases h : (value_extract mem p_end s (encU32 r0)).ok = false
  · simp [h]
  · by_cases hs : toInt32 (value_extract mem p_end s (encU32 r0)).result < 0
    · simp [h, hs]
    · by_cases hr : value_in_range_i32 (toInt32
          (if MAJOR_TYPE (rd mem s.pos) = CBOR_MAJOR_TYPE_NINT then
            encodeInt32 (1 - toInt32 (value_extract mem p_end s (encU32 r0)).result)
          else (value_extract mem p_end s (encU32 r0)).result)) p_min p_max = false
      · simp [h, hs, hr]
      · simp [h, hs, hr]

theorem int32_decode_ve_fail (mem : Nat → Nat) (p_end : Nat) (s : DState)
    (r0 : Nat) (p_min p_max : Option Int)
    (h : (value_extract mem p_end s (encU32 r0)).ok = false) :
    (int32_decode mem p_end s r0 p_min p_max).ok = false := by
  simp [int32_decode, h]

theorem int32_decode_sign_fail (mem : Nat → Nat) (p_end : Nat) (s : DState)
    (r0 : Nat) (p_min p_max : Option Int)
    (h : (value_extract mem p_end s (encU32 r0)).ok = true)
    (hs : toInt32 (value_extract mem p_end s (encU32 r0)).result < 0) :
    (int32_decode mem p_end s r0 p_min p_max).ok = false := by
  simp [int32_decode, h, hs]

theorem int32_decode_ok_result (mem : Nat → Nat) (p_end : Nat) (s : DState)
    (r0 : Nat) (p_min p_max : Option Int)
    (h : (value_extract mem p_end s (encU32 r0)).ok = true)
    (hs : ¬ toInt32 (value_extract mem p_end s (encU32 r0)).result < 0) :
    (int32_decode mem p_end s r0 p_min p_max).result =
      (if MAJOR_TYPE (rd mem s.pos) = CBOR_MAJOR_TYPE_NINT then
        encodeInt32 (1 - toInt32 (value_extract mem p_end s (encU32 r0)).result)
      else (value_extract mem p_end s (encU32 r0)).result) ∧
    (int32_decode mem p_end s r0 p_min p_max).ok =
      value_in_range_i32 (toInt32
        (if MAJOR_TYPE (rd mem s.pos) = CBOR_MAJOR_TYPE_NINT then
          encodeInt32 (1 - toInt32 (value_extract mem p_end s (encU32 r0)).result)
        else (value_extract mem p_end s (encU32 r0)).result)) p_min p_max := by
  simp only [int32_decode]
  by_cases hr : value_in_range_i32 (toInt32
      (if MAJOR_TYPE (rd mem s.pos) = CBOR_MAJOR_TYPE_NINT then
        encodeInt32 (1 - toInt32 (value_extract mem p_end s (encU32 r0)).result)
      else (value_extract mem p_end s (encU32 r0)).result)) p_min p_max = false
  · simp [h, hs, hr]
  · rw [Bool.not_eq_false] at hr
    simp [h, hs, hr]



theorem uintx32_type_fail (mem : Nat → Nat) (p_end : Nat) (s : DState)
    (r0 : Nat) (p_min p_max : Option Nat)
    (h : ¬ MAJOR_TYPE (rd mem s.pos) = CBOR_MAJOR_TYPE_PINT) :
    uintx32_decode mem p_end s r0 p_min p_max =
      ⟨false, s.pos, s.elemCount, encU32 r0, [s.pos]⟩ := by
  simp [uintx32_decode, h]

theorem uintx32_major_ok (mem : Nat → Nat) (p_end : Nat) (s : DState)
    (r0 : Nat) (p_min p_max : Option Nat)
    (h : MAJOR_TYPE (rd mem s.pos) = CBOR_MAJOR_TYPE_PINT) :
    uintx32_decode mem p_end s r0 p_min p_max =
      { uint32_decode mem p_end s r0 p_min p_max with
        reads := s.pos :: (uint32_decode mem p_end s r0 p_min p_max).reads } := by
  simp [uintx32_decode, h]

theorem intx32_type_fail (mem : Nat → Nat) (p_end : Nat) (s : DState)
    (r0 : Nat) (p_min p_max : Option Int)
    (h : ¬ MAJOR_TYPE (rd mem s.pos) = CBOR_MAJOR_TYPE_PINT ∧
      ¬ MAJOR_TYPE (rd mem s.pos) = CBOR_MAJOR_TYPE_NINT) :
    intx32_decode mem p_end s r0 p_min p_max =
      ⟨false, s.pos, s.elemCount, encU32 r0, [s.pos]⟩ := by
  simp [intx32_decode, h.1, h.2]

theorem intx32_major_ok (mem : Nat → Nat) (p_end : Nat) (s : DState)
    (r0 : Nat) (p_min p_max : Option Int)
    (h : MAJOR_TYPE (rd mem s.pos) = CBOR_MAJOR_TYPE_PINT ∨
      MAJOR_TYPE (rd mem s.pos) = CBOR_MAJOR_TYPE_NINT) :
    intx32_decode mem p_end s r0 p_min p_max =
      { int32_decode mem p_end s r0 p_min p_max with
        reads := s.pos :: (int32_decode mem p_end s r0 p_min p_max).reads } := by
  rcases h with h | h <;> simp [intx32_decode, h]

theorem int32_ok_imp_ve (mem : Nat → Nat) (p_end : Nat) (s : DState)
    (r0 : Nat) (p_min p_max : Option Int)
    (h : (int32_decode mem p_end s r0 p_min p_max).ok = true) :
    (value_extract mem p_end s (encU32 r0)).ok = true := by
  by_cases hv : (value_extract mem p_end s (encU32 r0)).ok = false
  · rw [int32_decode_ve_fail mem p_end s r0 p_min p_max hv] at h
    exact absurd h (by simp)
  · rw [Bool.not_eq_false] at hv
    exact hv

theorem strx_start_type_fail (mem : Nat → Nat) (p_end : Nat) (s : DState)
    (str0 : CborString) (p_min p_max : Option Nat)
    (h : ¬ MAJOR_TYPE (rd mem s.pos) = CBOR_MAJOR_TYPE_BSTR ∧
      ¬ MAJOR_TYPE (rd mem s.pos) = CBOR_MAJOR_TYPE_TSTR) :
    strx_start_decode mem p_end s str0 p_min p_max =
      ⟨false, s.pos, s.elemCount, str0, [s.pos]⟩ := by
  simp [strx_start_decode, h.1, h.2]

theorem strx_start_major_ok (mem : Nat → Nat) (p_end : Nat) (s : DState)
    (str0 : CborString) (p_min p_max : Option Nat)
    (h : MAJOR_TYPE (rd mem s.pos) = CBOR_MAJOR_TYPE_BSTR ∨
      MAJOR_TYPE (rd mem s.pos) = CBOR_MAJOR_TYPE_TSTR) :
    (strx_start_decode mem p_end s str0 p_min p_max).pos =
      (size_decode mem p_end s str0.len p_min p_max).pos ∧
    (strx_start_decode mem p_end s str0 p_min p_max).elemCount =
      (size_decode mem p_end s str0.len p_min p_max).elemCount ∧
    (strx_start_decode mem p_end s str0 p_min p_max).ok =
      (size_decode mem p_end s str0.len p_min p_max).ok ∧
    ((size_decode mem p_end s str0.len p_min p_max).ok = true →
      (strx_start_decode mem p_end s str0 p_min p_max).result =
        ⟨(size_decode mem p_end s str0.len p_min p_max).pos,
          leVal (size_decode mem p_end s str0.len p_min p_max).result⟩) := by
  by_cases hd : (size_decode mem p_end s str0.len p_min p_max).ok = false
  · rcases h with h | h <;> simp [strx_start_decode, h, hd] <;> simp_all
  · rw [Bool.not_eq_false] at hd
    rcases h with h | h <;> simp [strx_start_decode, h, hd]

theorem strx_fail_eq (mem : Nat → Nat) (p_end : Nat) (s : DState)
    (str0 : CborString) (p_min p_max : Option Nat)
    (h : (strx_start_decode mem p_end s str0 p_min p_max).ok = false) :
    strx_decode mem p_end s str0 p_min p_max =
      strx_start_decode mem p_end s str0 p_min p_max := by
  simp [strx_decode, h]

theorem strx_ok_eq (mem : Nat → Nat) (p_end : Nat) (s : DState)
    (str0 : CborString) (p_min p_max : Option Nat)
    (h : (strx_start_decode mem p_end s str0 p_min p_max).ok = true) :
    strx_decode mem p_end s str0 p_min p_max =
      { strx_start_decode mem p_end s str0 p_min p_max with
        pos := (strx_start_decode mem p_end s str0 p_min p_max).pos +
          (strx_start_decode mem p_end s str0 p_min p_max).result.len } := by
  simp [strx_decode, h]

theorem list_start_type_fail (mem : Nat → Nat) (p_end : Nat) (s : DState)
    (r0 : Nat) (min_num max_num : Nat)
    (h : ¬ MAJOR_TYPE (rd mem s.pos) = CBOR_MAJOR_TYPE_LIST ∧
      ¬ MAJOR_TYPE (rd mem s.pos) = CBOR_MAJOR_TYPE_MAP) :
    list_start_decode mem p_end s r0 min_num max_num =
      ⟨false, s.pos, s.elemCount, encU32 r0, [s.pos]⟩ := by
  simp [list_start_decode, h.1, h.2]

theorem list_start_major_ok (mem : Nat → Nat) (p_end : Nat) (s : DState)
    (r0 : Nat) (min_num max_num : Nat)
    (h : MAJOR_TYPE (rd mem s.pos) = CBOR_MAJOR_TYPE_LIST ∨
      MAJOR_TYPE (rd mem s.pos) = CBOR_MAJOR_TYPE_MAP) :
    list_start_decode mem p_end s r0 min_num max_num =
      { uint32_decode mem p_end s r0 (some min_num) (some max_num) with
        reads := s.pos ::
          (uint32_decode mem p_end s r0 (some min_num) (some max_num)).reads } := by
  rcases h with h | h <;> simp [list_start_decode, h]

theorem primx_type_fail (mem : Nat → Nat) (p_end : Nat) (s : DState)
    (val0 : Nat) (res0 : Option Nat) (p_min p_max : Option Nat)
    (h : ¬ MAJOR_TYPE (rd mem s.pos) = CBOR_MAJOR_TYPE_PRIM) :
    primx_decode mem p_end s val0 res0 p_min p_max =
      ⟨false, s.pos, s.elemCount, res0, [s.pos]⟩ := by
  simp [primx_decode, h]

theorem primx_major_ok (mem : Nat → Nat) (p_end : Nat) (s : DState)
    (val0 : Nat) (res0 : Option Nat) (p_min p_max : Option Nat)
    (h : MAJOR_TYPE (rd mem s.pos) = CBOR_MAJOR_TYPE_PRIM) :
    (primx_decode mem p_end s val0 res0 p_min p_max).pos =
      (uint32_decode mem p_end s val0 p_min p_max).pos ∧
    (primx_decode mem p_end s val0 res0 p_min p_max).elemCount =
      (uint32_decode mem p_end s val0 p_min p_max).elemCount ∧
    (primx_decode mem p_end s val0 res0 p_min p_max).ok =
      (uint32_decode mem p_end s val0 p_min p_max).ok ∧
    ((uint32_decode mem p_end s val0 p_min p_max).ok = true →
      (primx_decode mem p_end s val0 res0 p_min p_max).result =
        match res0 with
        | none => none
        | some _ =>
          some (leVal (uint32_decode mem p_end s val0 p_min p_max).result % 256)) := by
  by_cases hd : (uint32_decode mem p_end s val0 p_min p_max).ok = false
  · cases res0 <;> simp [primx_decode, h, hd] <;> simp_all
  · rw [Bool.not_eq_false] at hd
    cases res0 <;> simp [primx_decode, h, hd]

theorem any_decode_fields (mem : Nat → Nat) (p_end : Nat) (s : DState) :
    (any_decode mem p_end s).ok =
      (value_extract mem p_end s (List.replicate 8 0)).ok ∧
    (any_decode mem p_end s).elemCount =
      (value_extract mem p_end s (List.replicate 8 0)).elemCount ∧
    (any_decode mem p_end s).pos =
      (if (value_extract mem p_end s (List.replicate 8 0)).ok = true ∧
          (MAJOR_TYPE (rd mem s.pos) = CBOR_MAJOR_TYPE_BSTR ∨
           MAJOR_TYPE (rd mem s.pos) = CBOR_MAJOR_TYPE_TSTR ∨
           MAJOR_TYPE (rd mem s.pos) = CBOR_MAJOR_TYPE_LIST ∨
           MAJOR_TYPE (rd mem s.pos) = CBOR_MAJOR_TYPE_MAP) then
        (value_extract mem p_end s (List.replicate 8 0)).pos +
          leVal (value_extract mem p_end s (List.replicate 8 0)).result
      else (value_extract mem p_end s (List.replicate 8 0)).pos) := by
  simp only [any_decode]
  set v8 : List Nat := List.replicate 8 0 with hv8
  by_cases hv : (value_extract mem p_end s v8).ok = false
  · simp [hv]
  · rw [Bool.not_eq_false] at hv
    by_cases hm : MAJOR_TYPE (rd mem s.pos) = CBOR_MAJOR_TYPE_BSTR ∨
        MAJOR_TYPE (rd mem s.pos) = CBOR_MAJOR_TYPE_TSTR ∨
        MAJOR_TYPE (rd mem s.pos) = CBOR_MAJOR_TYPE_LIST ∨
        MAJOR_TYPE (rd mem s.pos) = CBOR_MAJOR_TYPE_MAP
    · simp [hv, hm]
    · simp [hv, hm]



theorem boolx_fields (mem : Nat → Nat) (p_end : Nat) (s : DState)
    (val0 res0 min0 max0 : Nat) :
    (boolx_decode mem p_end s val0 res0 min0 max0).pos =
      (primx_decode mem p_end s val0 (some res0)
        (some ((min0 % 256 + BOOL_TO_PRIM) % 256))
        (some ((max0 % 256 + BOOL_TO_PRIM) % 256))).pos ∧
    (boolx_decode mem p_end s val0 res0 min0 max0).elemCount =
      (primx_decode mem p_end s val0 (some res0)
        (some ((min0 % 256 + BOOL_TO_PRIM) % 256))
        (some ((max0 % 256 + BOOL_TO_PRIM) % 256))).elemCount ∧
    (boolx_decode mem p_end s val0 res0 min0 max0).ok =
      (primx_decode mem p_end s val0 (some res0)
        (some ((min0 % 256 + BOOL_TO_PRIM) % 256))
        (some ((max0 % 256 + BOOL_TO_PRIM) % 256))).ok := by
  simp only [boolx_decode]
  split <;> simp_all

theorem double_type_fail (dle : List Nat → List Nat → Bool) (mem : Nat → Nat)
    (p_end : Nat) (s : DState) (buf0 : List Nat)
    (p_min p_max : Option (List Nat))
    (h : ¬ MAJOR_TYPE (rd mem s.pos) = CBOR_MAJOR_TYPE_PRIM) :
    double_decode dle mem p_end s buf0 p_min p_max =
      ⟨false, s.pos, s.elemCount, buf0, [s.pos]⟩ := by
  simp [double_decode, h]

theorem double_major_ok (dle : List Nat → List Nat → Bool) (mem : Nat → Nat)
    (p_end : Nat) (s : DState) (buf0 : List Nat)
    (p_min p_max : Option (List Nat))
    (h : MAJOR_TYPE (rd mem s.pos) = CBOR_MAJOR_TYPE_PRIM) :
    (double_decode dle mem p_end s buf0 p_min p_max).pos =
      (value_extract mem p_end s buf0).pos ∧
    (double_decode dle mem p_end s buf0 p_min p_max).elemCount =
      (value_extract mem p_end s buf0).elemCount ∧
    ((double_decode dle mem p_end s buf0 p_min p_max).ok = true →
      (value_extract mem p_end s buf0).ok = true) := by
  simp only [double_decode, h]
  by_cases hv : (value_extract mem p_end s buf0).ok = false
  · simp [hv]
  · rw [Bool.not_eq_false] at hv
    by_cases hr : ((match p_min with
        | none => true
        | some m => dle m (value_extract mem p_end s buf0).result) &&
        (match p_max with
        | none => true
        | some m => dle (value_extract mem p_end s buf0).result m)) = false
    · simp [hv, hr]
    · simp [hv, hr]

theorem multi_go_zero (dec : Nat → DState → Bool × DState) (min_d i : Nat)
    (s : DState) : multi_go dec min_d i s 0 = (true, i, s) := rfl

theorem multi_go_succ (dec : Nat → DState → Bool × DState) (min_d i : Nat)
    (s : DState) (fuel : Nat) :
    multi_go dec min_d i s (fuel + 1) =
      if (dec i s).1 then multi_go dec min_d (i + 1) (dec i s).2 fuel
      else (decide (min_d ≤ i), i, s) := rfl

theorem multi_decode_fail_at (dec : Nat → DState → Bool × DState)
    (min_d max_d : Nat) (s : DState) (i : Nat) (hok : okUpTo dec s i)
    (hi : i < max_d) (hfail : (dec i (runOk dec s i)).1 = false) :
    multi_decode dec min_d max_d s = (decide (min_d ≤ i), i, runOk dec s i) := by
  have aux : ∀ d j, j + d = i →
      multi_go dec min_d j (runOk dec s j) (max_d - j) =
        (decide (min_d ≤ i), i, runOk dec s i) := by
    intro d
    induction d with
    | zero =>
      intro j hj
      have hji : j = i := by omega
      subst hji
      rw [show max_d - j = (max_d - j - 1) + 1 by omega, multi_go_succ, hfail]
      simp
    | succ d ih =>
      intro j hj
      have hjlt : j < i := by omega
      have hstep : (dec j (runOk dec s j)).1 = true := hok j hjlt
      rw [show max_d - j = (max_d - (j + 1)) + 1 by omega, multi_go_succ, hstep]
      simp only [if_true]
      have hrun : (dec j (runOk dec s j)).2 = runOk dec s (j + 1) := rfl
      rw [hrun]
      exact ih (j + 1) (by omega)
  have h0 := aux i 0 (by omega)
  simpa [multi_decode, runOk] using h0

theorem multi_decode_all_ok (dec : Nat → DState → Bool × DState)
    (min_d max_d : Nat) (s : DState) (hok : okUpTo dec s max_d) :
    multi_decode dec min_d max_d s = (true, max_d, runOk dec s max_d) := by
  have aux : ∀ d j, j + d = max_d →
      multi_go dec min_d j (runOk dec s j) (max_d - j) =
        (true, max_d, runOk dec s max_d) := by
    intro d
    induction d with
    | zero =>
      intro j hj
      have hji : j = max_d := by omega
      subst hji
      simp [Nat.sub_self, multi_go_zero]
    | succ d ih =>
      intro j hj
      have hjlt : j < max_d := by omega
      have hstep : (dec j (runOk dec s j)).1 = true := hok j hjlt
      rw [show max_d - j = (max_d - (j + 1)) + 1 by omega, multi_go_succ, hstep]
      simp only [if_true]
      have hrun : (dec j (runOk dec s j)).2 = runOk dec s (j + 1) := rfl
      rw [hrun]
      exact ih (j + 1) (by omega)
  have h0 := aux max_d 0 (by omega)
  simpa [multi_decode, runOk] using h0




/-- Claim C1, refuted at a concrete input: with the buffer end at offset 0
and the cursor at offset 0 (empty remaining buffer, budget 1), both
`value_extract` and `intx32_decode` dereference offset 0 — a position at
the buffer end — because the header byte is read before any bounds
check; the calls then fail, but the out-of-bounds read has happened. -/
theorem C1_header_read_at_end :
    0 ∈ (value_extract (memOf []) 0 ⟨0, 1⟩ (encU32 0)).reads ∧
    (value_extract (memOf []) 0 ⟨0, 1⟩ (encU32 0)).ok = false ∧
    0 ∈ (intx32_decode (memOf []) 0 ⟨0, 1⟩ 0 none none).reads ∧
    (intx32_decode (memOf []) 0 ⟨0, 1⟩ 0 none none).ok = false := by
  decide

/-- Claim C2, refuted at a concrete input: `uintx32_decode` on the single
byte `0x01` with max constraint 0 fails on the range check, yet leaves
the cursor advanced to offset 1 and the budget decremented from 5 to 4 —
not bit-identical to their pre-call values. -/
theorem C2_counterexample :
    (uintx32_decode (memOf [1]) 1 ⟨0, 5⟩ 0 none (some 0)).ok = false ∧
    (uintx32_decode (memOf [1]) 1 ⟨0, 5⟩ 0 none (some 0)).pos = 1 ∧
    (uintx32_decode (memOf [1]) 1 ⟨0, 5⟩ 0 none (some 0)).elemCount = 4 ∧
    ¬ (uintx32_decode (memOf [1]) 1 ⟨0, 5⟩ 0 none (some 0)).pos = 0 ∧
    ¬ (uintx32_decode (memOf [1]) 1 ⟨0, 5⟩ 0 none (some 0)).elemCount = 5 := by
  decide

/-- Claim C3, refuted: the code's negative-integer transform is
`result = 1 - result`, not the CBOR transform `-1 - result`, so header
`0x20` decodes successfully to `1` (the claim says `-1`) and `0x38 0x63`
decodes successfully to `-98` (the claim says `-100`). -/
theorem C3_negative_transform_bug :
    (intx32_decode (memOf [0x20]) 1 ⟨0, 1⟩ 0 none none).ok = true ∧
    toInt32 (intx32_decode (memOf [0x20]) 1 ⟨0, 1⟩ 0 none none).result = 1 ∧
    ¬ toInt32 (intx32_decode (memOf [0x20]) 1 ⟨0, 1⟩ 0 none none).result = -1 ∧
    (intx32_decode (memOf [0x38, 0x63]) 2 ⟨0, 1⟩ 0 none none).ok = true ∧
    toInt32 (intx32_decode (memOf [0x38, 0x63]) 2 ⟨0, 1⟩ 0 none none).result
      = -98 ∧
    ¬ toInt32 (intx32_decode (memOf [0x38, 0x63]) 2 ⟨0, 1⟩ 0 none none).result
      = -100 := by
  decide

/-- Claim C5, refuted at a concrete input: `strx_decode` on the single
byte `0x41` (byte string of declared length 1, buffer end at offset 1)
succeeds and leaves the cursor at offset 2, past the buffer end, because
the declared payload is never validated; `any_decode` on `0x45` likewise
succeeds with the cursor at offset 6. -/
theorem C5_counterexample :
    (strx_decode (memOf [0x41]) 1 ⟨0, 1⟩ ⟨0, 0⟩ none none).ok = true ∧
    1 < (strx_decode (memOf [0x41]) 1 ⟨0, 1⟩ ⟨0, 0⟩ none none).pos ∧
    (any_decode (memOf [0x45]) 1 ⟨0, 1⟩).ok = true ∧
    1 < (any_decode (memOf [0x45]) 1 ⟨0, 1⟩).pos := by
  decide

/-- Claim C6: in `value_extract` the budget is decremented by exactly one
on every successful extraction; a call with budget zero fails without
moving the cursor or touching the budget; and on every validation
failure the cursor is rewound to the header byte and the budget is left
untouched. -/
theorem C6_budget (mem : Nat → Nat) (p_end : Nat) (s : DState)
    (buf : List Nat) :
    ((value_extract mem p_end s buf).ok = true →
      s.elemCount ≠ 0 ∧
      (value_extract mem p_end s buf).elemCount + 1 = s.elemCount) ∧
    (s.elemCount = 0 →
      (value_extract mem p_end s buf).ok = false ∧
      (value_extract mem p_end s buf).pos = s.pos ∧
      (value_extract mem p_end s buf).elemCount = s.elemCount) ∧
    ((value_extract mem p_end s buf).ok = false →
      (value_extract mem p_end s buf).pos = s.pos ∧
      (value_extract mem p_end s buf).elemCount = s.elemCount) := by
  refine ⟨fun h => value_extract_ok_budget mem p_end s buf h, fun h0 => ?_,
    fun h => value_extract_fail_state mem p_end s buf h⟩
  have hf := value_extract_budget_zero mem p_end s buf h0
  exact ⟨hf, (value_extract_fail_state mem p_end s buf hf).1,
    (value_extract_fail_state mem p_end s buf hf).2⟩

/-- Witness for C6 at a concrete input: budget 0 makes the call fail with
the cursor and budget unchanged. -/
theorem C6_budget_witness :
    (value_extract (memOf [0]) 1 ⟨0, 0⟩ (encU32 0)).ok = false ∧
    (value_extract (memOf [0]) 1 ⟨0, 0⟩ (encU32 0)).pos = 0 ∧
    (value_extract (memOf [0]) 1 ⟨0, 0⟩ (encU32 0)).elemCount = 0 :=
  (C6_budget (memOf [0]) 1 ⟨0, 0⟩ (encU32 0)).2.1 rfl

/-- Claim C4: `int32_decode` first extracts a 4-byte raw magnitude; it
fails whenever the raw magnitude has its top bit set (is at least
`2^31`), regardless of the range constraint; otherwise it applies
`result = 1 - result` exactly when the major type is the negative
integer (leaving the value unchanged otherwise) and succeeds exactly
when the final signed value passes the optional range constraint, which
is checked against the final (transformed) value. -/
theorem C4_int32_pipeline (mem : Nat → Nat) (p_end : Nat) (s : DState)
    (r0 : Nat) (p_min p_max : Option Int) :
    ((value_extract mem p_end s (encU32 r0)).ok = false →
      (int32_decode mem p_end s r0 p_min p_max).ok = false) ∧
    ((value_extract mem p_end s (encU32 r0)).ok = true →
      2 ^ 31 ≤ leVal (value_extract mem p_end s (encU32 r0)).result →
      (int32_decode mem p_end s r0 p_min p_max).ok = false) ∧
    ((value_extract mem p_end s (encU32 r0)).ok = true →
      leVal (value_extract mem p_end s (encU32 r0)).result < 2 ^ 31 →
      (int32_decode mem p_end s r0 p_min p_max).ok =
        value_in_range_i32
          (if MAJOR_TYPE (rd mem s.pos) = CBOR_MAJOR_TYPE_NINT then
            1 - (leVal (value_extract mem p_end s (encU32 r0)).result : Int)
          else (leVal (value_extract mem p_end s (encU32 r0)).result : Int))
          p_min p_max ∧
      toInt32 (int32_decode mem p_end s r0 p_min p_max).result =
        (if MAJOR_TYPE (rd mem s.pos) = CBOR_MAJOR_TYPE_NINT then
          1 - (leVal (value_extract mem p_end s (encU32 r0)).result : Int)
        else (leVal (value_extract mem p_end s (encU32 r0)).result : Int))) := by
  have hlt := value_extract_u32_lt mem p_end s r0
  refine ⟨int32_decode_ve_fail mem p_end s r0 p_min p_max, ?_, ?_⟩
  · intro hok hhi
    have hsgn : toInt32 (value_extract mem p_end s (encU32 r0)).result < 0 := by
      simp only [toInt32]
      rw [if_neg (by omega)]
      omega
    exact int32_decode_sign_fail mem p_end s r0 p_min p_max hok hsgn
  · intro hok hlo
    have hele : toInt32 (value_extract mem p_end s (encU32 r0)).result =
        (leVal (value_extract mem p_end s (encU32 r0)).result : Int) := by
      simp only [toInt32]
      rw [if_pos (by omega)]
    have hsgn : ¬ toInt32 (value_extract mem p_end s (encU32 r0)).result < 0 := by
      rw [hele]
      omega
    have hres := int32_decode_ok_result mem p_end s r0 p_min p_max hok hsgn
    by_cases hm : MAJOR_TYPE (rd mem s.pos) = CBOR_MAJOR_TYPE_NINT
    · rw [if_pos hm] at hres ⊢
      have henc : toInt32 (encodeInt32
          (1 - toInt32 (value_extract mem p_end s (encU32 r0)).result)) =
          1 - (leVal (value_extract mem p_end s (encU32 r0)).result : Int) := by
        rw [hele]
        exact toInt32_encodeInt32 _ (by omega) (by omega)
      rw [hres.1, hres.2, henc]
      exact ⟨rfl, rfl⟩
    · rw [if_neg hm] at hres ⊢
      rw [hres.1, hres.2, hele]
      exact ⟨rfl, rfl⟩

/-- Witness for C4 at a concrete input: decoding the single header byte
`0x05` (positive integer 5) goes through the no-transform path. -/
theorem C4_int32_pipeline_witness :
    (int32_decode (memOf [5]) 1 ⟨0, 1⟩ 0 none none).ok =
      value_in_range_i32
        (if MAJOR_TYPE (rd (memOf [5]) 0) = CBOR_MAJOR_TYPE_NINT then
          1 - (leVal (value_extract (memOf [5]) 1 ⟨0, 1⟩ (encU32 0)).result : Int)
        else (leVal (value_extract (memOf [5]) 1 ⟨0, 1⟩ (encU32 0)).result : Int))
        none none ∧
    toInt32 (int32_decode (memOf [5]) 1 ⟨0, 1⟩ 0 none none).result =
      (if MAJOR_TYPE (rd (memOf [5]) 0) = CBOR_MAJOR_TYPE_NINT then
        1 - (leVal (value_extract (memOf [5]) 1 ⟨0, 1⟩ (encU32 0)).result : Int)
      else (leVal (value_extract (memOf [5]) 1 ⟨0, 1⟩ (encU32 0)).result : Int)) :=
  (C4_int32_pipeline (memOf [5]) 1 ⟨0, 1⟩ 0 none none).2.2 (by decide) (by decide)



/-- Claim C8: `multi_decode` attempts its callback greedily; on the first
failing attempt it rolls the cursor and budget back to the snapshot
taken immediately before that attempt, reports the count of prior
successes, and succeeds exactly when that count reaches the minimum.
Concretely, on a buffer with exactly 3 valid unsigned-integer encodings
followed by an invalid byte, min=2/max=5 succeeds with count 3 and
min=4/max=5 fails. -/
theorem C8_multi_greedy :
    (∀ (dec : Nat → DState → Bool × DState) (min_d max_d : Nat) (s : DState)
      (i : Nat), okUpTo dec s i → i < max_d →
      (dec i (runOk dec s i)).1 = false →
      multi_decode dec min_d max_d s =
        (decide (min_d ≤ i), i, runOk dec s i)) ∧
    multi_decode (uintDec (memOf [1, 2, 3, 0xFF]) 4) 2 5 ⟨0, 10⟩ =
      (true, 3, ⟨3, 7⟩) ∧
    multi_decode (uintDec (memOf [1, 2, 3, 0xFF]) 4) 4 5 ⟨0, 10⟩ =
      (false, 3, ⟨3, 7⟩) :=
  ⟨fun dec min_d max_d s i hok hi hfail =>
    multi_decode_fail_at dec min_d max_d s i hok hi hfail,
   by decide, by decide⟩

/-- Witness for C8 at a concrete input: a callback that always fails
stops at count 0 with the pre-call state restored, and fails for
min 1. -/
theorem C8_multi_greedy_witness :
    multi_decode (fun _ s => (false, s)) 1 2 ⟨0, 0⟩ = (false, 0, ⟨0, 0⟩) :=
  C8_multi_greedy.1 (fun _ s => (false, s)) 1 2 ⟨0, 0⟩ 0
    (fun k hk => absurd hk (by omega)) (by omega) rfl

/-- Claim C9: `multi_decode` enforces its minimum only on the failure
path: when all `max_decode` attempts succeed — including the degenerate
`max_decode = 0`, where the loop body never runs — it returns success
with count `max_decode`, even when `max_decode` is strictly below
`min_decode` (concretely min=4, max=0 succeeds with count 0 < 4). -/
theorem C9_min_unenforced :
    (∀ (dec : Nat → DState → Bool × DState) (min_d : Nat) (s : DState),
      multi_decode dec min_d 0 s = (true, 0, s)) ∧
    (∀ (dec : Nat → DState → Bool × DState) (min_d max_d : Nat) (s : DState),
      okUpTo dec s max_d →
      multi_decode dec min_d max_d s = (true, max_d, runOk dec s max_d)) ∧
    (multi_decode (fun _ s => (true, s)) 4 0 ⟨0, 0⟩ = (true, 0, ⟨0, 0⟩) ∧
      0 < 4) :=
  ⟨fun _ _ _ => rfl,
   fun dec min_d max_d s hok => multi_decode_all_ok dec min_d max_d s hok,
   rfl, by omega⟩

/-- Witness for C9 at a concrete input: an always-succeeding callback
runs to max 2 and succeeds even with min 5. -/
theorem C9_min_unenforced_witness :
    multi_decode (fun _ s => (true, s)) 5 2 ⟨0, 0⟩ = (true, 2, ⟨0, 0⟩) :=
  C9_min_unenforced.2.1 (fun _ s => (true, s)) 5 2 ⟨0, 0⟩ (fun _ _ => rfl)

/-- Claim C10: `primx_decode` range-checks the decoded value as a full
32-bit unsigned integer but, when a result destination is supplied,
stores only its low 8 bits (`v % 256`); concretely the encoding
`0xF9 0x01 0x00` of the primitive value 256 passes an unconstrained
range check and stores 0. -/
theorem C10_prim_truncation (mem : Nat → Nat) (p_end : Nat) (s : DState)
    (val0 res0 : Nat) (p_min p_max : Option Nat) :
    (MAJOR_TYPE (rd mem s.pos) = CBOR_MAJOR_TYPE_PRIM →
      (primx_decode mem p_end s val0 (some res0) p_min p_max).ok =
        (uint32_decode mem p_end s val0 p_min p_max).ok ∧
      ((uint32_decode mem p_end s val0 p_min p_max).ok = true →
        (primx_decode mem p_end s val0 (some res0) p_min p_max).result =
          some (leVal (uint32_decode mem p_end s val0 p_min p_max).result
            % 256))) ∧
    ((primx_decode (memOf [0xF9, 0x01, 0x00]) 3 ⟨0, 1⟩ 0 (some 0) none
        none).ok = true ∧
      leVal (uint32_decode (memOf [0xF9, 0x01, 0x00]) 3 ⟨0, 1⟩ 0 none
        none).result = 256 ∧
      (primx_decode (memOf [0xF9, 0x01, 0x00]) 3 ⟨0, 1⟩ 0 (some 0) none
        none).result = some 0) := by
  constructor
  · intro hm
    have hp := primx_major_ok mem p_end s val0 (some res0) p_min p_max hm
    exact ⟨hp.2.2.1, fun hu => hp.2.2.2 hu⟩
  · exact ⟨by decide, by decide, by decide⟩

/-- Witness for C10 at a concrete input: the primitive value 256 is
stored truncated to its low byte. -/
theorem C10_prim_truncation_witness :
    (primx_decode (memOf [0xF9, 0x01, 0x00]) 3 ⟨0, 1⟩ 9 (some 7) none
      none).result =
      some (leVal (uint32_decode (memOf [0xF9, 0x01, 0x00]) 3 ⟨0, 1⟩ 9 none
        none).result % 256) :=
  ((C10_prim_truncation (memOf [0xF9, 0x01, 0x00]) 3 ⟨0, 1⟩ 9 7 none
    none).1 (by decide)).2 (by decide)



theorem uint32_fail_disj (mem : Nat → Nat) (p_end : Nat) (s : DState)
    (r0 : Nat) (p_min p_max : Option Nat) :
    ((uint32_decode mem p_end s r0 p_min p_max).pos = s.pos ∧
      (uint32_decode mem p_end s r0 p_min p_max).elemCount = s.elemCount) ∨
    ((value_extract mem p_end s (encU32 r0)).ok = true ∧
      (uint32_decode mem p_end s r0 p_min p_max).pos =
        (value_extract mem p_end s (encU32 r0)).pos ∧
      (uint32_decode mem p_end s r0 p_min p_max).elemCount =
        (value_extract mem p_end s (encU32 r0)).elemCount) := by
  have hf := uint32_decode_fields mem p_end s r0 p_min p_max
  by_cases hv : (value_extract mem p_end s (encU32 r0)).ok = false
  · left
    rw [hf.1, hf.2.1]
    exact value_extract_fail_state mem p_end s (encU32 r0) hv
  · right
    rw [Bool.not_eq_false] at hv
    exact ⟨hv, hf.1, hf.2.1⟩

theorem int32_fail_disj (mem : Nat → Nat) (p_end : Nat) (s : DState)
    (r0 : Nat) (p_min p_max : Option Int) :
    ((int32_decode mem p_end s r0 p_min p_max).pos = s.pos ∧
      (int32_decode mem p_end s r0 p_min p_max).elemCount = s.elemCount) ∨
    ((value_extract mem p_end s (encU32 r0)).ok = true ∧
      (int32_decode mem p_end s r0 p_min p_max).pos =
        (value_extract mem p_end s (encU32 r0)).pos ∧
      (int32_decode mem p_end s r0 p_min p_max).elemCount =
        (value_extract mem p_end s (encU32 r0)).elemCount) := by
  have hf := int32_decode_state mem p_end s r0 p_min p_max
  by_cases hv : (value_extract mem p_end s (encU32 r0)).ok = false
  · left
    rw [hf.1, hf.2.1]
    exact value_extract_fail_state mem p_end s (encU32 r0) hv
  · right
    rw [Bool.not_eq_false] at hv
    exact ⟨hv, hf.1, hf.2.1⟩

theorem strx_start_fail_disj (mem : Nat → Nat) (p_end : Nat) (s : DState)
    (str0 : CborString) (p_min p_max : Option Nat) :
    ((strx_start_decode mem p_end s str0 p_min p_max).pos = s.pos ∧
      (strx_start_decode mem p_end s str0 p_min p_max).elemCount =
        s.elemCount) ∨
    ((value_extract mem p_end s (encU32 str0.len)).ok = true ∧
      (strx_start_decode mem p_end s str0 p_min p_max).pos =
        (value_extract mem p_end s (encU32 str0.len)).pos ∧
      (strx_start_decode mem p_end s str0 p_min p_max).elemCount =
        (value_extract mem p_end s (encU32 str0.len)).elemCount) := by
  by_cases hm : MAJOR_TYPE (rd mem s.pos) = CBOR_MAJOR_TYPE_BSTR ∨
      MAJOR_TYPE (rd mem s.pos) = CBOR_MAJOR_TYPE_TSTR
  · have hf := strx_start_major_ok mem p_end s str0 p_min p_max hm
    have hu := uint32_fail_disj mem p_end s str0.len p_min p_max
    rw [hf.1, hf.2.1]
    exact hu
  · push_neg at hm
    rw [strx_start_type_fail mem p_end s str0 p_min p_max hm]
    left
    exact ⟨rfl, rfl⟩

theorem primx_fail_disj (mem : Nat → Nat) (p_end : Nat) (s : DState)
    (val0 : Nat) (res0 : Option Nat) (p_min p_max : Option Nat) :
    ((primx_decode mem p_end s val0 res0 p_min p_max).pos = s.pos ∧
      (primx_decode mem p_end s val0 res0 p_min p_max).elemCount =
        s.elemCount) ∨
    ((value_extract mem p_end s (encU32 val0)).ok = true ∧
      (primx_decode mem p_end s val0 res0 p_min p_max).pos =
        (value_extract mem p_end s (encU32 val0)).pos ∧
      (primx_decode mem p_end s val0 res0 p_min p_max).elemCount =
        (value_extract mem p_end s (encU32 val0)).elemCount) := by
  by_cases hm : MAJOR_TYPE (rd mem s.pos) = CBOR_MAJOR_TYPE_PRIM
  · have hf := primx_major_ok mem p_end s val0 res0 p_min p_max hm
    have hu := uint32_fail_disj mem p_end s val0 p_min p_max
    rw [hf.1, hf.2.1]
    exact hu
  · rw [primx_type_fail mem p_end s val0 res0 p_min p_max hm]
    left
    exact ⟨rfl, rfl⟩

/-- Claim C2, amended: a decode call that fails before or during value
extraction (type mismatch, budget exhaustion, header or extension
overrun, width overflow) leaves the cursor and budget bit-identical to
their pre-call values; but a call that fails after a successful
extraction (signed-magnitude rejection or range-constraint violation)
leaves the cursor and budget at the extraction's post-call values, i.e.
advanced past the item and decremented by one.  Formally: every failing
call ends either with the pre-call cursor/budget or with the
corresponding successful extraction's cursor/budget. -/
theorem C2_amended_rollback (mem : Nat → Nat) (p_end : Nat) (s : DState)
    (buf buf0 : List Nat) (r0 i0 str0len val0 res0 min0 max0 lmin lmax : Nat)
    (resOpt : Option Nat) (strv : Nat)
    (dle : List Nat → List Nat → Bool)
    (pminU pmaxU : Option Nat) (pminI pmaxI : Option Int)
    (pminD pmaxD : Option (List Nat)) :
    ((value_extract mem p_end s buf).ok = false →
      (value_extract mem p_end s buf).pos = s.pos ∧
      (value_extract mem p_end s buf).elemCount = s.elemCount) ∧
    ((uint32_decode mem p_end s r0 pminU pmaxU).ok = false →
      ((uint32_decode mem p_end s r0 pminU pmaxU).pos = s.pos ∧
        (uint32_decode mem p_end s r0 pminU pmaxU).elemCount = s.elemCount) ∨
      ((value_extract mem p_end s (encU32 r0)).ok = true ∧
        (uint32_decode mem p_end s r0 pminU pmaxU).pos =
          (value_extract mem p_end s (encU32 r0)).pos ∧
        (uint32_decode mem p_end s r0 pminU pmaxU).elemCount =
          (value_extract mem p_end s (encU32 r0)).elemCount)) ∧
    ((uintx32_decode mem p_end s r0 pminU pmaxU).ok = false →
      ((uintx32_decode mem p_end s r0 pminU pmaxU).pos = s.pos ∧
        (uintx32_decode mem p_end s r0 pminU pmaxU).elemCount = s.elemCount) ∨
      ((value_extract mem p_end s (encU32 r0)).ok = true ∧
        (uintx32_decode mem p_end s r0 pminU pmaxU).pos =
          (value_extract mem p_end s (encU32 r0)).pos ∧
        (uintx32_decode mem p_end s r0 pminU pmaxU).elemCount =
          (value_extract mem p_end s (encU32 r0)).elemCount)) ∧
    ((int32_decode mem p_end s i0 pminI pmaxI).ok = false →
      ((int32_decode mem p_end s i0 pminI pmaxI).pos = s.pos ∧
        (int32_decode mem p_end s i0 pminI pmaxI).elemCount = s.elemCount) ∨
      ((value_extract mem p_end s (encU32 i0)).ok = true ∧
        (int32_decode mem p_end s i0 pminI pmaxI).pos =
          (value_extract mem p_end s (encU32 i0)).pos ∧
        (int32_decode mem p_end s i0 pminI pmaxI).elemCount =
          (value_extract mem p_end s (encU32 i0)).elemCount)) ∧
    ((intx32_decode mem p_end s i0 pminI pmaxI).ok = false →
      ((intx32_decode mem p_end s i0 pminI pmaxI).pos = s.pos ∧
        (intx32_decode mem p_end s i0 pminI pmaxI).elemCount = s.elemCount) ∨
      ((value_extract mem p_end s (encU32 i0)).ok = true ∧
        (intx32_decode mem p_end s i0 pminI pmaxI).pos =
          (value_extract mem p_end s (encU32 i0)).pos ∧
        (intx32_decode mem p_end s i0 pminI pmaxI).elemCount =
          (value_extract mem p_end s (encU32 i0)).elemCount)) ∧
    ((strx_start_decode mem p_end s ⟨strv, str0len⟩ pminU pmaxU).ok = false →
      ((strx_start_decode mem p_end s ⟨strv, str0len⟩ pminU pmaxU).pos = s.pos ∧
        (strx_start_decode mem p_end s ⟨strv, str0len⟩ pminU pmaxU).elemCount =
          s.elemCount) ∨
      ((value_extract mem p_end s (encU32 str0len)).ok = true ∧
        (strx_start_decode mem p_end s ⟨strv, str0len⟩ pminU pmaxU).pos =
          (value_extract mem p_end s (encU32 str0len)).pos ∧
        (strx_start_decode mem p_end s ⟨strv, str0len⟩ pminU pmaxU).elemCount =
          (value_extract mem p_end s (encU32 str0len)).elemCount)) ∧
    ((strx_decode mem p_end s ⟨strv, str0len⟩ pminU pmaxU).ok = false →
      ((strx_decode mem p_end s ⟨strv, str0len⟩ pminU pmaxU).pos = s.pos ∧
        (strx_decode mem p_end s ⟨strv, str0len⟩ pminU pmaxU).elemCount =
          s.elemCount) ∨
      ((value_extract mem p_end s (encU32 str0len)).ok = true ∧
        (strx_decode mem p_end s ⟨strv, str0len⟩ pminU pmaxU).pos =
          (value_extract mem p_end s (encU32 str0len)).pos ∧
        (strx_decode mem p_end s ⟨strv, str0len⟩ pminU pmaxU).elemCount =
          (value_extract mem p_end s (encU32 str0len)).elemCount)) ∧
    ((list_start_decode mem p_end s r0 lmin lmax).ok = false →
      ((list_start_decode mem p_end s r0 lmin lmax).pos = s.pos ∧
        (list_start_decode mem p_end s r0 lmin lmax).elemCount = s.elemCount) ∨
      ((value_extract mem p_end s (encU32 r0)).ok = true ∧
        (list_start_decode mem p_end s r0 lmin lmax).pos =
          (value_extract mem p_end s (encU32 r0)).pos ∧
        (list_start_decode mem p_end s r0 lmin lmax).elemCount =
          (value_extract mem p_end s (encU32 r0)).elemCount)) ∧
    ((primx_decode mem p_end s val0 resOpt pminU pmaxU).ok = false →
      ((primx_decode mem p_end s val0 resOpt pminU pmaxU).pos = s.pos ∧
        (primx_decode mem p_end s val0 resOpt pminU pmaxU).elemCount =
          s.elemCount) ∨
      ((value_extract mem p_end s (encU32 val0)).ok = true ∧
        (primx_decode mem p_end s val0 resOpt pminU pmaxU).pos =
          (value_extract mem p_end s (encU32 val0)).pos ∧
        (primx_decode mem p_end s val0 resOpt pminU pmaxU).elemCount =
          (value_extract mem p_end s (encU32 val0)).elemCount)) ∧
    ((boolx_decode mem p_end s val0 res0 min0 max0).ok = false →
      ((boolx_decode mem p_end s val0 res0 min0 max0).pos = s.pos ∧
        (boolx_decode mem p_end s val0 res0 min0 max0).elemCount =
          s.elemCount) ∨
      ((value_extract mem p_end s (encU32 val0)).ok = true ∧
        (boolx_decode mem p_end s val0 res0 min0 max0).pos =
          (value_extract mem p_end s (encU32 val0)).pos ∧
        (boolx_decode mem p_end s val0 res0 min0 max0).elemCount =
          (value_extract mem p_end s (encU32 val0)).elemCount)) ∧
    ((double_decode dle mem p_end s buf0 pminD pmaxD).ok = false →
      ((double_decode dle mem p_end s buf0 pminD pmaxD).pos = s.pos ∧
        (double_decode dle mem p_end s buf0 pminD pmaxD).elemCount =
          s.elemCount) ∨
      ((value_extract mem p_end s buf0).ok = true ∧
        (double_decode dle mem p_end s buf0 pminD pmaxD).pos =
          (value_extract mem p_end s buf0).pos ∧
        (double_decode dle mem p_end s buf0 pminD pmaxD).elemCount =
          (value_extract mem p_end s buf0).elemCount)) ∧
    ((any_decode mem p_end s).ok = false →
      (any_decode mem p_end s).pos = s.pos ∧
      (any_decode mem p_end s).elemCount = s.elemCount) := by
  refine ⟨fun h => value_extract_fail_state mem p_end s buf h,
    fun _ => uint32_fail_disj mem p_end s r0 pminU pmaxU, ?_,
    fun _ => int32_fail_disj mem p_end s i0 pminI pmaxI, ?_,
    fun _ => strx_start_fail_disj mem p_end s ⟨strv, str0len⟩ pminU pmaxU,
    ?_, ?_,
    fun _ => primx_fail_disj mem p_end s val0 resOpt pminU pmaxU, ?_, ?_, ?_⟩
  · intro h
    by_cases hm : MAJOR_TYPE (rd mem s.pos) = CBOR_MAJOR_TYPE_PINT
    · rw [uintx32_major_ok mem p_end s r0 pminU pmaxU hm]
      exact uint32_fail_disj mem p_end s r0 pminU pmaxU
    · rw [uintx32_type_fail mem p_end s r0 pminU pmaxU hm]
      left
      exact ⟨rfl, rfl⟩
  · intro h
    by_cases hm : MAJOR_TYPE (rd mem s.pos) = CBOR_MAJOR_TYPE_PINT ∨
        MAJOR_TYPE (rd mem s.pos) = CBOR_MAJOR_TYPE_NINT
    · rw [intx32_major_ok mem p_end s i0 pminI pmaxI hm]
      exact int32_fail_disj mem p_end s i0 pminI pmaxI
    · push_neg at hm
      rw [intx32_type_fail mem p_end s i0 pminI pmaxI hm]
      left
      exact ⟨rfl, rfl⟩
  · intro h
    by_cases hs : (strx_start_decode mem p_end s ⟨strv, str0len⟩ pminU
        pmaxU).ok = false
    · rw [strx_fail_eq mem p_end s ⟨strv, str0len⟩ pminU pmaxU hs]
      exact strx_start_fail_disj mem p_end s ⟨strv, str0len⟩ pminU pmaxU
    · rw [Bool.not_eq_false] at hs
      have hcontra : (strx_decode mem p_end s ⟨strv, str0len⟩ pminU
          pmaxU).ok = true := by
        rw [strx_ok_eq mem p_end s ⟨strv, str0len⟩ pminU pmaxU hs]
        exact hs
      rw [hcontra] at h
      exact absurd h (by simp)
  · intro h
    by_cases hm : MAJOR_TYPE (rd mem s.pos) = CBOR_MAJOR_TYPE_LIST ∨
        MAJOR_TYPE (rd mem s.pos) = CBOR_MAJOR_TYPE_MAP
    · rw [list_start_major_ok mem p_end s r0 lmin lmax hm]
      exact uint32_fail_disj mem p_end s r0 (some lmin) (some lmax)
    · push_neg at hm
      rw [list_start_type_fail mem p_end s r0 lmin lmax hm]
      left
      exact ⟨rfl, rfl⟩
  · intro h
    have hb := boolx_fields mem p_end s val0 res0 min0 max0
    rw [hb.1, hb.2.1]
    exact primx_fail_disj mem p_end s val0 (some res0)
      (some ((min0 % 256 + BOOL_TO_PRIM) % 256))
      (some ((max0 % 256 + BOOL_TO_PRIM) % 256))
  · intro h
    by_cases hm : MAJOR_TYPE (rd mem s.pos) = CBOR_MAJOR_TYPE_PRIM
    · have hf := double_major_ok dle mem p_end s buf0 pminD pmaxD hm
      by_cases hv : (value_extract mem p_end s buf0).ok = false
      · left
        rw [hf.1, hf.2.1]
        exact value_extract_fail_state mem p_end s buf0 hv
      · right
        rw [Bool.not_eq_false] at hv
        exact ⟨hv, hf.1, hf.2.1⟩
    · rw [double_type_fail dle mem p_end s buf0 pminD pmaxD hm]
      left
      exact ⟨rfl, rfl⟩
  · intro h
    have hf := any_decode_fields mem p_end s
    have hv : (value_extract mem p_end s (List.replicate 8 0)).ok = false := by
      rw [← hf.1]
      exact h
    have hcond : ¬ ((value_extract mem p_end s (List.replicate 8 0)).ok =
        true ∧
        (MAJOR_TYPE (rd mem s.pos) = CBOR_MAJOR_TYPE_BSTR ∨
         MAJOR_TYPE (rd mem s.pos) = CBOR_MAJOR_TYPE_TSTR ∨
         MAJOR_TYPE (rd mem s.pos) = CBOR_MAJOR_TYPE_LIST ∨
         MAJOR_TYPE (rd mem s.pos) = CBOR_MAJOR_TYPE_MAP)) := by
      intro hc
      rw [hv] at hc
      simp at hc
    rw [hf.2.1, hf.2.2, if_neg hcond]
    exact value_extract_fail_state mem p_end s (List.replicate 8 0) hv

/-- Witness for C2 (amended) at a concrete input: the failing
`uintx32_decode` call of the counterexample ends in one of the two
permitted states (here: the extraction's post-call state). -/
theorem C2_amended_rollback_witness :
    ((uintx32_decode (memOf [1]) 1 ⟨0, 5⟩ 0 none (some 0)).pos = 0 ∧
      (uintx32_decode (memOf [1]) 1 ⟨0, 5⟩ 0 none (some 0)).elemCount = 5) ∨
    ((value_extract (memOf [1]) 1 ⟨0, 5⟩ (encU32 0)).ok = true ∧
      (uintx32_decode (memOf [1]) 1 ⟨0, 5⟩ 0 none (some 0)).pos =
        (value_extract (memOf [1]) 1 ⟨0, 5⟩ (encU32 0)).pos ∧
      (uintx32_decode (memOf [1]) 1 ⟨0, 5⟩ 0 none (some 0)).elemCount =
        (value_extract (memOf [1]) 1 ⟨0, 5⟩ (encU32 0)).elemCount) :=
  (C2_amended_rollback (memOf [1]) 1 ⟨0, 5⟩ (encU32 0) (encU32 0) 0 0 0 0 0 0 0
    0 0 none 0 (fun _ _ => true) none (some 0) none none none
    none).2.2.1 (by decide)



theorem uint32_ok_pos_le (mem : Nat → Nat) (p_end : Nat) (s : DState)
    (r0 : Nat) (p_min p_max : Option Nat)
    (h : (uint32_decode mem p_end s r0 p_min p_max).ok = true) :
    (uint32_decode mem p_end s r0 p_min p_max).pos ≤ p_end := by
  have hf := uint32_decode_fields mem p_end s r0 p_min p_max
  rw [hf.2.2.2.2] at h
  simp only [Bool.and_eq_true] at h
  rw [hf.1]
  exact value_extract_ok_pos_le mem p_end s (encU32 r0) h.1

theorem primx_ok_pos_le (mem : Nat → Nat) (p_end : Nat) (s : DState)
    (val0 : Nat) (res0 : Option Nat) (p_min p_max : Option Nat)
    (h : (primx_decode mem p_end s val0 res0 p_min p_max).ok = true) :
    (primx_decode mem p_end s val0 res0 p_min p_max).pos ≤ p_end := by
  by_cases hm : MAJOR_TYPE (rd mem s.pos) = CBOR_MAJOR_TYPE_PRIM
  · have hf := primx_major_ok mem p_end s val0 res0 p_min p_max hm
    rw [hf.2.2.1] at h
    rw [hf.1]
    exact uint32_ok_pos_le mem p_end s val0 p_min p_max h
  · rw [primx_type_fail mem p_end s val0 res0 p_min p_max hm] at h
    exact absurd h (by simp)

/-- Claim C5, amended: after every successful `value_extract`,
`uintx32_decode`, `intx32_decode`, `strx_start_decode`,
`list_start_decode`, `primx_decode`, `boolx_decode` and `double_decode`
the cursor does not exceed the end position; but `strx_decode` advances
the cursor by the decoded string length with no bounds check, and
`any_decode` (for string/list/map major types) advances it by the
extracted value with no bounds check, so those two can leave the cursor
past the buffer end on success. -/
theorem C5_amended_bounds (mem : Nat → Nat) (p_end : Nat) (s : DState)
    (buf buf0 : List Nat) (r0 i0 strv str0len val0 res0 min0 max0 lmin
      lmax : Nat) (resOpt : Option Nat)
    (dle : List Nat → List Nat → Bool)
    (pminU pmaxU : Option Nat) (pminI pmaxI : Option Int)
    (pminD pmaxD : Option (List Nat)) :
    ((value_extract mem p_end s buf).ok = true →
      (value_extract mem p_end s buf).pos ≤ p_end) ∧
    ((uintx32_decode mem p_end s r0 pminU pmaxU).ok = true →
      (uintx32_decode mem p_end s r0 pminU pmaxU).pos ≤ p_end) ∧
    ((intx32_decode mem p_end s i0 pminI pmaxI).ok = true →
      (intx32_decode mem p_end s i0 pminI pmaxI).pos ≤ p_end) ∧
    ((strx_start_decode mem p_end s ⟨strv, str0len⟩ pminU pmaxU).ok = true →
      (strx_start_decode mem p_end s ⟨strv, str0len⟩ pminU pmaxU).pos ≤
        p_end) ∧
    ((list_start_decode mem p_end s r0 lmin lmax).ok = true →
      (list_start_decode mem p_end s r0 lmin lmax).pos ≤ p_end) ∧
    ((primx_decode mem p_end s val0 resOpt pminU pmaxU).ok = true →
      (primx_decode mem p_end s val0 resOpt pminU pmaxU).pos ≤ p_end) ∧
    ((boolx_decode mem p_end s val0 res0 min0 max0).ok = true →
      (boolx_decode mem p_end s val0 res0 min0 max0).pos ≤ p_end) ∧
    ((double_decode dle mem p_end s buf0 pminD pmaxD).ok = true →
      (double_decode dle mem p_end s buf0 pminD pmaxD).pos ≤ p_end) ∧
    ((strx_decode mem p_end s ⟨strv, str0len⟩ pminU pmaxU).ok = true →
      (strx_decode mem p_end s ⟨strv, str0len⟩ pminU pmaxU).pos =
        (strx_start_decode mem p_end s ⟨strv, str0len⟩ pminU pmaxU).pos +
        (strx_start_decode mem p_end s ⟨strv, str0len⟩ pminU
          pmaxU).result.len) ∧
    ((any_decode mem p_end s).ok = true →
      (MAJOR_TYPE (rd mem s.pos) = CBOR_MAJOR_TYPE_BSTR ∨
       MAJOR_TYPE (rd mem s.pos) = CBOR_MAJOR_TYPE_TSTR ∨
       MAJOR_TYPE (rd mem s.pos) = CBOR_MAJOR_TYPE_LIST ∨
       MAJOR_TYPE (rd mem s.pos) = CBOR_MAJOR_TYPE_MAP) →
      (any_decode mem p_end s).pos =
        (value_extract mem p_end s (List.replicate 8 0)).pos +
        leVal (value_extract mem p_end s (List.replicate 8 0)).result) := by
  refine ⟨fun h => value_extract_ok_pos_le mem p_end s buf h, ?_, ?_, ?_, ?_,
    fun h => primx_ok_pos_le mem p_end s val0 resOpt pminU pmaxU h, ?_, ?_,
    ?_, ?_⟩
  · intro h
    by_cases hm : MAJOR_TYPE (rd mem s.pos) = CBOR_MAJOR_TYPE_PINT
    · rw [uintx32_major_ok mem p_end s r0 pminU pmaxU hm] at h ⊢
      exact uint32_ok_pos_le mem p_end s r0 pminU pmaxU h
    · rw [uintx32_type_fail mem p_end s r0 pminU pmaxU hm] at h
      exact absurd h (by simp)
  · intro h
    by_cases hm : MAJOR_TYPE (rd mem s.pos) = CBOR_MAJOR_TYPE_PINT ∨
        MAJOR_TYPE (rd mem s.pos) = CBOR_MAJOR_TYPE_NINT
    · rw [intx32_major_ok mem p_end s i0 pminI pmaxI hm] at h ⊢
      have hv := int32_ok_imp_ve mem p_end s i0 pminI pmaxI h
      have hst := int32_decode_state mem p_end s i0 pminI pmaxI
      rw [hst.1]
      exact value_extract_ok_pos_le mem p_end s (encU32 i0) hv
    · push_neg at hm
      rw [intx32_type_fail mem p_end s i0 pminI pmaxI hm] at h
      exact absurd h (by simp)
  · intro h
    by_cases hm : MAJOR_TYPE (rd mem s.pos) = CBOR_MAJOR_TYPE_BSTR ∨
        MAJOR_TYPE (rd mem s.pos) = CBOR_MAJOR_TYPE_TSTR
    · have hf := strx_start_major_ok mem p_end s ⟨strv, str0len⟩ pminU pmaxU hm
      rw [hf.2.2.1] at h
      rw [hf.1]
      exact uint32_ok_pos_le mem p_end s str0len pminU pmaxU h
    · push_neg at hm
      rw [strx_start_type_fail mem p_end s ⟨strv, str0len⟩ pminU pmaxU hm]
        at h
      exact absurd h (by simp)
  · intro h
    by_cases hm : MAJOR_TYPE (rd mem s.pos) = CBOR_MAJOR_TYPE_LIST ∨
        MAJOR_TYPE (rd mem s.pos) = CBOR_MAJOR_TYPE_MAP
    · rw [list_start_major_ok mem p_end s r0 lmin lmax hm] at h ⊢
      exact uint32_ok_pos_le mem p_end s r0 (some lmin) (some lmax) h
    · push_neg at hm
      rw [list_start_type_fail mem p_end s r0 lmin lmax hm] at h
      exact absurd h (by simp)
  · intro h
    have hb := boolx_fields mem p_end s val0 res0 min0 max0
    rw [hb.2.2] at h
    rw [hb.1]
    exact primx_ok_pos_le mem p_end s val0 (some res0)
      (some ((min0 % 256 + BOOL_TO_PRIM) % 256))
      (some ((max0 % 256 + BOOL_TO_PRIM) % 256)) h
  · intro h
    by_cases hm : MAJOR_TYPE (rd mem s.pos) = CBOR_MAJOR_TYPE_PRIM
    · have hf := double_major_ok dle mem p_end s buf0 pminD pmaxD hm
      have hv := hf.2.2 h
      rw [hf.1]
      exact value_extract_ok_pos_le mem p_end s buf0 hv
    · rw [double_type_fail dle mem p_end s buf0 pminD pmaxD hm] at h
      exact absurd h (by simp)
  · intro h
    by_cases hs : (strx_start_decode mem p_end s ⟨strv, str0len⟩ pminU
        pmaxU).ok = false
    · rw [strx_fail_eq mem p_end s ⟨strv, str0len⟩ pminU pmaxU hs] at h
      rw [hs] at h
      exact absurd h (by simp)
    · rw [Bool.not_eq_false] at hs
      rw [strx_ok_eq mem p_end s ⟨strv, str0len⟩ pminU pmaxU hs]
  · intro h hmaj
    have hf := any_decode_fields mem p_end s
    have hv : (value_extract mem p_end s (List.replicate 8 0)).ok = true := by
      rw [← hf.1]
      exact h
    rw [hf.2.2, if_pos ⟨hv, hmaj⟩]

/-- Witness for C5 (amended) at a concrete input: the successful
`value_extract` of the header byte `0x00` leaves the cursor within the
buffer. -/
theorem C5_amended_bounds_witness :
    (value_extract (memOf [0]) 1 ⟨0, 1⟩ (encU32 0)).pos ≤ 1 :=
  (C5_amended_bounds (memOf [0]) 1 ⟨0, 1⟩ (encU32 0) (encU32 0) 0 0 0 0 0 0 0
    0 0 0 none (fun _ _ => true) none none none none none none).1 (by decide)



theorem set_replicate_zero_head (n a : Nat) (h : 1 ≤ n) :
    (List.replicate n 0).set 0 a = a :: List.replicate (n - 1) 0 := by
  cases n with
  | zero => omega
  | succ n => simp [List.replicate_succ]

theorem leVal_replicate_zero (k : Nat) : leVal (List.replicate k 0) = 0 := by
  induction k with
  | zero => rfl
  | succ k ih => simp [List.replicate_succ, leVal, ih]

theorem leVal_cons_zeros (a k : Nat) :
    leVal (a :: List.replicate k 0) = a := by
  simp [leVal, leVal_replicate_zero]

theorem additional_len_table (a : Nat) (h1 : 24 ≤ a) (h2 : a ≤ 27) :
    additional_len a =
      if a = 24 then 1 else if a = 25 then 2 else if a = 26 then 4 else 8 := by
  interval_cases a <;> rfl

theorem additional_len_zero_of_ge (a : Nat) (h : 28 ≤ a) :
    additional_len a = 0 := by
  unfold additional_len
  split_ifs <;> omega

theorem drop_cons_replicate (x k len : Nat) (h : 1 ≤ len) :
    List.drop len (x :: List.replicate k 0) = List.replicate (k + 1 - len) 0 := by
  cases len with
  | zero => omega
  | succ m => simp [List.drop_succ_cons, List.drop_replicate]

theorem extCopy_zero (mem : Nat → Nat) (pos1 : Nat) (b : List Nat) :
    extCopy mem pos1 0 b = b := rfl

/-- Claim C7: for every header byte accepted by `value_extract`
(success assumed), if the additional info is at most 23 it is itself the
value, placed in the first result byte with the rest of the buffer
zero-filled and no extension bytes consumed; if it is 24, 25, 26 or 27
then respectively 1, 2, 4 or 8 following bytes are consumed and placed
byte-reversed (big-endian to host order) into the low-order end of the
result buffer, the remainder zero-filled; if it is 28 through 31, zero
extension bytes are consumed and the raw additional-info bits land in
the first result byte, the rest zero-filled. -/
theorem C7_value_cases (mem : Nat → Nat) (p_end : Nat) (s : DState)
    (buf : List Nat) (hb : 1 ≤ buf.length)
    (h : (value_extract mem p_end s buf).ok = true) :
    (ADDITIONAL (rd mem s.pos) ≤ 23 →
      (value_extract mem p_end s buf).result =
        ADDITIONAL (rd mem s.pos) :: List.replicate (buf.length - 1) 0 ∧
      leVal (value_extract mem p_end s buf).result =
        ADDITIONAL (rd mem s.pos) ∧
      (value_extract mem p_end s buf).pos = s.pos + 1) ∧
    (24 ≤ ADDITIONAL (rd mem s.pos) → ADDITIONAL (rd mem s.pos) ≤ 27 →
      additional_len (ADDITIONAL (rd mem s.pos)) =
        (if ADDITIONAL (rd mem s.pos) = 24 then 1
         else if ADDITIONAL (rd mem s.pos) = 25 then 2
         else if ADDITIONAL (rd mem s.pos) = 26 then 4 else 8) ∧
      (value_extract mem p_end s buf).pos =
        s.pos + 1 + additional_len (ADDITIONAL (rd mem s.pos)) ∧
      (value_extract mem p_end s buf).result =
        (List.range (additional_len (ADDITIONAL (rd mem s.pos)))).map
          (fun i => rd mem (s.pos + 1 +
            (additional_len (ADDITIONAL (rd mem s.pos)) - i - 1))) ++
        List.replicate
          (buf.length - additional_len (ADDITIONAL (rd mem s.pos))) 0) ∧
    (28 ≤ ADDITIONAL (rd mem s.pos) →
      (value_extract mem p_end s buf).pos = s.pos + 1 ∧
      (value_extract mem p_end s buf).result =
        ADDITIONAL (rd mem s.pos) :: List.replicate (buf.length - 1) 0) := by
  rcases value_extract_spec mem p_end s buf with
    ⟨he, _⟩ | ⟨he, _⟩ | ⟨he, hc⟩ | ⟨he, hc⟩
  · rw [he] at h
    exact absurd h (by simp)
  · rw [he] at h
    exact absurd h (by simp)
  · refine ⟨fun hle => absurd hc.2.2.1 (by omega), fun h24 h27 => ?_,
      fun h28 => ?_⟩
    · have htbl := additional_len_table (ADDITIONAL (rd mem s.pos)) h24 h27
      have hlen1 : 1 ≤ additional_len (ADDITIONAL (rd mem s.pos)) := by
        rw [htbl]
        split_ifs <;> omega
      have hlenle : additional_len (ADDITIONAL (rd mem s.pos)) ≤
          ((List.replicate buf.length 0).set 0
            (ADDITIONAL (rd mem s.pos))).length := by
        simpa using hc.2.2.2.1
      refine ⟨htbl, by rw [he], ?_⟩
      rw [he]
      simp only []
      rw [extCopy_eq mem (s.pos + 1)
        (additional_len (ADDITIONAL (rd mem s.pos))) _ hlenle]
      rw [set_replicate_zero_head buf.length (ADDITIONAL (rd mem s.pos)) hb]
      rw [drop_cons_replicate _ _ _ hlen1]
      rw [show buf.length - 1 + 1 - additional_len (ADDITIONAL (rd mem s.pos))
        = buf.length - additional_len (ADDITIONAL (rd mem s.pos)) by omega]
    · have hlen0 := additional_len_zero_of_ge (ADDITIONAL (rd mem s.pos)) h28
      constructor
      · rw [he]
        simp [hlen0]
      · rw [he]
        simp only [hlen0, extCopy_zero]
        exact set_replicate_zero_head buf.length (ADDITIONAL (rd mem s.pos)) hb
  · refine ⟨fun _ => ?_, fun h24 _ => absurd hc.2.2 (by omega),
      fun h28 => absurd hc.2.2 (by omega)⟩
    refine ⟨?_, ?_, by rw [he]⟩
    · rw [he]
      simp only []
      exact set_replicate_zero_head buf.length (ADDITIONAL (rd mem s.pos)) hb
    · rw [he]
      simp only []
      rw [set_replicate_zero_head buf.length (ADDITIONAL (rd mem s.pos)) hb]
      exact leVal_cons_zeros _ _

/-- Witness for C7 at a concrete input: the single header byte `0x05`
decodes with the additional info 5 as the value, the cursor advanced by
one and the rest of the 4-byte buffer zero-filled. -/
theorem C7_value_cases_witness :
    (value_extract (memOf [5]) 1 ⟨0, 1⟩ (encU32 0)).result =
      5 :: List.replicate 3 0 ∧
    leVal (value_extract (memOf [5]) 1 ⟨0, 1⟩ (encU32 0)).result = 5 ∧
    (value_extract (memOf [5]) 1 ⟨0, 1⟩ (encU32 0)).pos = 1 :=
  (C7_value_cases (memOf [5]) 1 ⟨0, 1⟩ (encU32 0) (by decide) (by decide)).1
    (by decide)


end CborDecode
